import Mathlib

/-!
Verification development for the pre-packed-weights caching subsystem of
onnxruntime (core/framework/prepacked_weights_container.{h,cc}).

The C++ containers are shallowly embedded:
* `std::unordered_map` becomes an association list with first-match lookup
  (`assocLookup`); `insert` (insert-only-if-absent), `insert_or_assign`
  (overwrite) and `operator[].push_back` are modelled by `assocLookup`
  guards, `assocInsertOrAssign` and `assocPush` respectively.
* `PrePackedWeights` blob content is opaque to this subsystem, so a blob is
  an abstract datum (`Blob := Nat`).
* `AllocatorPtr` identity is an abstract id (`Nat`); a fresh id is drawn
  from a counter, modelling pointer identity of a newly created allocator.
* `ORT_THROW` / `.at` exceptions become `Except OrtError` results; a member
  function that may throw before mutating returns the (unchanged) state
  alongside the error, modelling C++ exception propagation that leaves the
  object intact.
-/

set_option autoImplicit false

namespace OnnxPrepacked

/-- Opaque pre-packed weight blob datum (buffer contents are outside this
subsystem; only identity/equality of the stored value matters here). -/
abbrev Blob := Nat

section Assoc

variable {κ : Type} {β : Type} [DecidableEq κ]

/-- First-match lookup in an association list; models
`std::unordered_map::find` (each C++ map holds at most one entry per key,
and every operation below preserves the first-match discipline). -/
def assocLookup : List (κ × β) → κ → Option β
  | [], _ => none
  | (k', b) :: rest, k => if k' = k then some b else assocLookup rest k

/-- Overwriting insertion; models `std::unordered_map::insert_or_assign`. -/
def assocInsertOrAssign : List (κ × β) → κ → β → List (κ × β)
  | [], k, b => [(k, b)]
  | (k', b') :: rest, k, b =>
      if k' = k then (k, b) :: rest else (k', b') :: assocInsertOrAssign rest k b

/-- Appends one element to the list stored under a key, creating the entry
if absent; models `map[key].push_back(x)` on a map of vectors. -/
def assocPush : List (κ × List β) → κ → β → List (κ × List β)
  | [], k, x => [(k, [x])]
  | (k', l) :: rest, k, x =>
      if k' = k then (k', l ++ [x]) :: rest else (k', l) :: assocPush rest k x

end Assoc

/-- Error taxonomy of the subsystem (spec section 7); each constructor
stands for one distinct `ORT_THROW` / `.at`-exception site in the code. -/
inductive OrtError where
  | NotFound
  | UnsupportedDevice
  | IndexOutOfRange
  | AbsentWeight
  deriving DecidableEq, Repr

/-- The supported device name (`CPU` constant used by
`PrepackedWeightsContainer::GetOrCreateAllocator`). -/
def CPU : String := "Cpu"

/-- State of `PrepackedWeightsContainer`: the allocator registry
`allocators_` (device name to allocator identity), a counter supplying
fresh allocator identities (modelling `CreateAllocator` returning a new
object), and the flat cache `prepacked_weights_map_`. -/
structure PrepackedWeightsContainer where
  allocators : List (String × Nat)
  next_allocator_id : Nat
  prepacked_weights_map : List (String × Blob)
  deriving DecidableEq, Repr

/-- A freshly constructed (empty) `PrepackedWeightsContainer`. -/
def PrepackedWeightsContainer.init : PrepackedWeightsContainer :=
  { allocators := [], next_allocator_id := 0, prepacked_weights_map := [] }

/-- `PrepackedWeightsContainer::GetOrCreateAllocator`: returns the memoized
allocator when present; otherwise creates and stores one for `"Cpu"`, and
throws `UnsupportedDevice` (state unchanged) for any other device name. -/
def PrepackedWeightsContainer.GetOrCreateAllocator
    (c : PrepackedWeightsContainer) (device_name : String) :
    Except OrtError Nat × PrepackedWeightsContainer :=
  match assocLookup c.allocators device_name with
  | some a => (.ok a, c)
  | none =>
      if device_name = CPU then
        let a := c.next_allocator_id
        (.ok a,
         { c with
             allocators := (device_name, a) :: c.allocators,
             next_allocator_id := c.next_allocator_id + 1 })
      else
        (.error .UnsupportedDevice, c)

/-- `PrepackedWeightsContainer::GetWeight`: `.at()` lookup that throws when
the key is absent (the `NotFound` failure of the spec). -/
def PrepackedWeightsContainer.GetWeight
    (c : PrepackedWeightsContainer) (key : String) : Except OrtError Blob :=
  match assocLookup c.prepacked_weights_map key with
  | some b => .ok b
  | none => .error .NotFound

/-- `PrepackedWeightsContainer::WriteWeight`: `insert` into the map, which
inserts only if the key is absent; returns whether insertion took place. -/
def PrepackedWeightsContainer.WriteWeight
    (c : PrepackedWeightsContainer) (key : String) (packed_weight : Blob) :
    Bool × PrepackedWeightsContainer :=
  match assocLookup c.prepacked_weights_map key with
  | some _ => (false, c)
  | none =>
      (true, { c with prepacked_weights_map :=
                 (key, packed_weight) :: c.prepacked_weights_map })

/-- `PrepackedWeightsContainer::HasWeight`: pure membership test. -/
def PrepackedWeightsContainer.HasWeight
    (c : PrepackedWeightsContainer) (key : String) : Bool :=
  (assocLookup c.prepacked_weights_map key).isSome

/-- `PrepackedWeightsContainer::GetNumberOfElements`: size of the map. -/
def PrepackedWeightsContainer.GetNumberOfElements
    (c : PrepackedWeightsContainer) : Nat :=
  c.prepacked_weights_map.length

/-- Map from cache key to blob (`PrepackedForSerialization::KeyToBlobMap`);
the single flat map shared by every scope of the store. -/
abbrev KeyToBlobMap := List (String × Blob)

/-- Per-scope node of the `PrepackedForSerialization::Subgraph` tree. The
store is embedded as an arena of these nodes (`Subgraph*` pointers become
arena indices, as do the `Graph*` identities keying `subgraph_prepacks_`);
the iterators stored in `weight_to_pre_packs_` become the corresponding
flat-map keys, resolved through the shared map on access. -/
structure Subgraph where
  overwrite_for_save : Bool
  parent : Option Nat
  weight_to_pre_packs : List (String × List String)
  subgraph_prepacks : List (Nat × Nat)
  deriving DecidableEq, Repr

/-- State of `PrepackedForSerialization`: the shared flat map
`key_to_blobs_` and the arena of scopes; index 0 is `main_graph_`. -/
structure PrepackedForSerialization where
  key_to_blobs : KeyToBlobMap
  scopes : List Subgraph
  deriving DecidableEq, Repr

/-- `PrepackedForSerialization` constructor: an empty flat map and the main
graph scope with a null parent and the given overwrite-for-save flag. -/
def PrepackedForSerialization.init (overwrite_for_save : Bool) :
    PrepackedForSerialization :=
  { key_to_blobs := [],
    scopes := [{ overwrite_for_save := overwrite_for_save, parent := none,
                 weight_to_pre_packs := [], subgraph_prepacks := [] }] }

/-- The scope node stored at arena index `sid` (dereference of a
`Subgraph*`). -/
def PrepackedForSerialization.scopeAt (st : PrepackedForSerialization)
    (sid : Nat) : Option Subgraph :=
  st.scopes[sid]?

/-- `Subgraph::GetSubgraph`: looks `graph` up in this scope's own
`subgraph_prepacks_` map and returns the child (as an arena index) or
null; it does not consult the parent chain. -/
def PrepackedForSerialization.GetSubgraph (st : PrepackedForSerialization)
    (sid : Nat) (graph : Nat) : Option Nat :=
  match st.scopes[sid]? with
  | none => none
  | some sg => assocLookup sg.subgraph_prepacks graph

/-- `Subgraph::GetOrCreateSubgraph`: returns the existing child scope for
`graph` if present; otherwise constructs a child with this scope as
parent, the same shared flat-map reference (structural in this embedding:
there is one `key_to_blobs` per store) and the inherited
`overwrite_for_save_` flag, registers it and returns it. A call with a
dangling `sid` (impossible through a C++ reference) is a no-op. -/
def PrepackedForSerialization.GetOrCreateSubgraph
    (st : PrepackedForSerialization) (sid : Nat) (graph : Nat) :
    Nat × PrepackedForSerialization :=
  match st.scopes[sid]? with
  | none => (0, st)
  | some sg =>
      match assocLookup sg.subgraph_prepacks graph with
      | some cid => (cid, st)
      | none =>
          let cid := st.scopes.length
          let child : Subgraph :=
            { overwrite_for_save := sg.overwrite_for_save, parent := some sid,
              weight_to_pre_packs := [], subgraph_prepacks := [] }
          let sg' := { sg with subgraph_prepacks := (graph, cid) :: sg.subgraph_prepacks }
          (cid, { st with scopes := st.scopes.set sid sg' ++ [child] })

/-- Modelled from the spec: the body of `Subgraph::InsertFromDisk` is not
part of the excerpt (only its declaration is). Per the spec it "inserts
directly into the shared flat map without touching the per-weight-name
index". -/
def PrepackedForSerialization.InsertFromDisk (st : PrepackedForSerialization)
    (key : String) (packed_weight : Blob) : PrepackedForSerialization :=
  { st with key_to_blobs := assocInsertOrAssign st.key_to_blobs key packed_weight }

/-- Modelled from the spec: the body of `Subgraph::GetPrepackedWeights` is
not part of the excerpt (only its declarations are). Per the spec it is a
"direct lookup bypassing the name index; returns null rather than
failing". -/
def PrepackedForSerialization.GetPrepackedWeights
    (st : PrepackedForSerialization) (key : String) : Option Blob :=
  assocLookup st.key_to_blobs key

/-- Modelled from the spec: the body of `Subgraph::CreateOrOverWrite` is
not part of the excerpt (only its declaration is). Per the spec it
"inserts/overwrites the flat-map entry at `key` and (re)links it into
`weightName`'s index entry list" and "the boolean reports whether an entry
at `key` already existed". The link is appended to the name's entry list,
matching the `push_back` discipline of the excerpted sibling
`PrepackedWeightsForSerialization::WriteWeight`. -/
def PrepackedForSerialization.CreateOrOverWrite
    (st : PrepackedForSerialization) (sid : Nat) (weight_name : String)
    (key : String) (packed_weight : Blob) : Bool × PrepackedForSerialization :=
  match st.scopes[sid]? with
  | none => (false, st)
  | some sg =>
      let existed := (assocLookup st.key_to_blobs key).isSome
      let sg' := { sg with
                     weight_to_pre_packs := assocPush sg.weight_to_pre_packs weight_name key }
      (existed,
       { st with
           key_to_blobs := assocInsertOrAssign st.key_to_blobs key packed_weight,
           scopes := st.scopes.set sid sg' })

/-- `PrepackedWeightsForSerialization::GetBlobNumForWeight` (body in the
excerpt), applied to a scope's own name index: the size of the entry list
for `weight_name`, or 0 when the name is absent; no parent fallback. -/
def PrepackedForSerialization.GetBlobNumForWeight
    (st : PrepackedForSerialization) (sid : Nat) (weight_name : String) : Nat :=
  match st.scopes[sid]? with
  | none => 0
  | some sg =>
      match assocLookup sg.weight_to_pre_packs weight_name with
      | some l => l.length
      | none => 0

/-- `PrepackedWeightsForSerialization::GetBlobForWeight` (body in the
excerpt), applied to a scope's own name index: `ORT_ENFORCE` of the index
bound when the name is registered (the `IndexOutOfRange` failure),
`ORT_THROW` when it is not (the `AbsentWeight` failure); in range, the
stored iterator is dereferenced, here by resolving the stored key through
the shared flat map (`NotFound` stands for a dangling iterator, which no
reachable state produces). -/
def PrepackedForSerialization.GetBlobForWeight
    (st : PrepackedForSerialization) (sid : Nat) (weight_name : String)
    (index : Nat) : Except OrtError Blob :=
  match st.scopes[sid]? with
  | none => .error .AbsentWeight
  | some sg =>
      match assocLookup sg.weight_to_pre_packs weight_name with
      | some l =>
          match l[index]? with
          | some key =>
              match assocLookup st.key_to_blobs key with
              | some b => .ok b
              | none => .error .NotFound
          | none => .error .IndexOutOfRange
      | none => .error .AbsentWeight

/-- One call against a `PrepackedWeightsContainer`, for reasoning about
arbitrary finite call sequences. -/
inductive ContainerOp where
  | write (key : String) (packed_weight : Blob)
  | get (key : String)
  | has (key : String)
  | numElements
  deriving DecidableEq, Repr

/-- Runs a sequence of container calls, returning the final container and
the number of `WriteWeight` calls that returned `true`. `GetWeight`,
`HasWeight` and `GetNumberOfElements` are `const` members and leave the
container unchanged. -/
def runOps : List ContainerOp → PrepackedWeightsContainer →
    PrepackedWeightsContainer × Nat
  | [], c => (c, 0)
  | .write k b :: rest, c =>
      let r := c.WriteWeight k b
      let res := runOps rest r.2
      (res.1, (if r.1 then 1 else 0) + res.2)
  | .get _ :: rest, c => runOps rest c
  | .has _ :: rest, c => runOps rest c
  | .numElements :: rest, c => runOps rest c

section AssocLemmas

variable {κ : Type} {β : Type} [DecidableEq κ]

@[simp] theorem assocLookup_nil (k : κ) : assocLookup ([] : List (κ × β)) k = none := rfl

theorem assocLookup_cons (k' k : κ) (b : β) (rest : List (κ × β)) :
    assocLookup ((k', b) :: rest) k = if k' = k then some b else assocLookup rest k := rfl

@[simp] theorem assocLookup_insertOrAssign_self (m : List (κ × β)) (k : κ) (b : β) :
    assocLookup (assocInsertOrAssign m k b) k = some b := by
  induction m with
  | nil => simp [assocInsertOrAssign, assocLookup]
  | cons hd rest ih =>
      obtain ⟨k', b'⟩ := hd
      by_cases h : k' = k <;> simp [assocInsertOrAssign, assocLookup, h, ih]

@[simp] theorem assocLookup_insertOrAssign_other (m : List (κ × β)) (k k₂ : κ) (b : β)
    (h : k ≠ k₂) : assocLookup (assocInsertOrAssign m k b) k₂ = assocLookup m k₂ := by
  induction m with
  | nil => simp [assocInsertOrAssign, assocLookup, h]
  | cons hd rest ih =>
      obtain ⟨k', b'⟩ := hd
      by_cases hk : k' = k
      · subst hk
        simp [assocInsertOrAssign, assocLookup, h]
      · simp [assocInsertOrAssign, assocLookup, hk, ih]

@[simp] theorem assocLookup_push_self (m : List (κ × List β)) (k : κ) (x : β) :
    assocLookup (assocPush m k x) k = some ((assocLookup m k).getD [] ++ [x]) := by
  induction m with
  | nil => simp [assocPush, assocLookup]
  | cons hd rest ih =>
      obtain ⟨k', l⟩ := hd
      by_cases h : k' = k <;> simp [assocPush, assocLookup, h, ih]

@[simp] theorem assocLookup_push_other (m : List (κ × List β)) (k k₂ : κ) (x : β)
    (h : k ≠ k₂) : assocLookup (assocPush m k x) k₂ = assocLookup m k₂ := by
  induction m with
  | nil => simp [assocPush, assocLookup, h]
  | cons hd rest ih =>
      obtain ⟨k', l⟩ := hd
      by_cases hk : k' = k
      · subst hk
        simp [assocPush, assocLookup, h]
      · simp [assocPush, assocLookup, hk, ih]

end AssocLemmas

section ContainerLemmas

/-- Running a call sequence grows the map size by exactly the number of
`WriteWeight` calls that returned `true`. -/
theorem getNumberOfElements_runOps (ops : List ContainerOp)
    (c : PrepackedWeightsContainer) :
    (runOps ops c).1.GetNumberOfElements =
      c.GetNumberOfElements + (runOps ops c).2 := by
  induction ops generalizing c with
  | nil => simp [runOps]
  | cons op rest ih =>
      cases op with
      | write k b =>
          cases hw : assocLookup c.prepacked_weights_map k with
          | some b' =>
              simp [runOps, PrepackedWeightsContainer.WriteWeight, hw, ih]
          | none =>
              have hih := ih { c with prepacked_weights_map := (k, b) :: c.prepacked_weights_map }
              simp [runOps, PrepackedWeightsContainer.WriteWeight, hw,
                    PrepackedWeightsContainer.GetNumberOfElements] at hih ⊢
              omega
      | get k => simp [runOps, ih]
      | has k => simp [runOps, ih]
      | numElements => simp [runOps, ih]

/-- A key that no `write` call of the sequence mentions is untouched by
running the sequence. -/
theorem assocLookup_runOps_of_not_written (ops : List ContainerOp)
    (c : PrepackedWeightsContainer) (k : String)
    (h : ∀ b, ContainerOp.write k b ∉ ops) :
    assocLookup (runOps ops c).1.prepacked_weights_map k =
      assocLookup c.prepacked_weights_map k := by
  induction ops generalizing c with
  | nil => simp [runOps]
  | cons op rest ih =>
      have hrest : ∀ b, ContainerOp.write k b ∉ rest := by
        intro b hb
        exact h b (List.mem_cons_of_mem _ hb)
      cases op with
      | write k' b =>
          have hk : k' ≠ k := by
            intro hkk
            exact h b (by simp [hkk])
          cases hw : assocLookup c.prepacked_weights_map k' with
          | some b' =>
              simp [runOps, PrepackedWeightsContainer.WriteWeight, hw, ih _ hrest]
          | none =>
              simp [runOps, PrepackedWeightsContainer.WriteWeight, hw,
                    ih _ hrest, assocLookup_cons, hk]
      | get k' => simpa [runOps] using ih c hrest
      | has k' => simpa [runOps] using ih c hrest
      | numElements => simpa [runOps] using ih c hrest

end ContainerLemmas

/-- C1: on any container state where key `K` is absent, the first
`WriteWeight(K, B)` returns `true`, after which `HasWeight(K)` holds and
`GetWeight(K)` returns `B`; a subsequent `WriteWeight(K, B2)` with any
blob `B2` returns `false`, leaves the container unchanged, and
`GetWeight(K)` still returns the originally written blob `B`. -/
theorem writeWeight_first_wins_never_overwrites
    (c : PrepackedWeightsContainer) (k : String) (b : Blob)
    (hk : assocLookup c.prepacked_weights_map k = none) :
    (c.WriteWeight k b).1 = true ∧
    (c.WriteWeight k b).2.HasWeight k = true ∧
    (c.WriteWeight k b).2.GetWeight k = .ok b ∧
    ∀ b2 : Blob,
      ((c.WriteWeight k b).2.WriteWeight k b2).1 = false ∧
      ((c.WriteWeight k b).2.WriteWeight k b2).2 = (c.WriteWeight k b).2 ∧
      ((c.WriteWeight k b).2.WriteWeight k b2).2.GetWeight k = .ok b := by
  simp [PrepackedWeightsContainer.WriteWeight, hk,
        PrepackedWeightsContainer.HasWeight, PrepackedWeightsContainer.GetWeight,
        assocLookup_cons]

/-- Witness for C1 at the spec's concrete scenario: key `"Conv+abc123"`,
a first blob `64` and a duplicate write attempt with blob `65`. -/
theorem writeWeight_first_wins_never_overwrites_witness :
    ((PrepackedWeightsContainer.init.WriteWeight "Conv+abc123" 64).1 = true ∧
     (PrepackedWeightsContainer.init.WriteWeight "Conv+abc123" 64).2.HasWeight "Conv+abc123" = true ∧
     (PrepackedWeightsContainer.init.WriteWeight "Conv+abc123" 64).2.GetWeight "Conv+abc123" = .ok 64 ∧
     (((PrepackedWeightsContainer.init.WriteWeight "Conv+abc123" 64).2.WriteWeight "Conv+abc123" 65).1 = false ∧
      ((PrepackedWeightsContainer.init.WriteWeight "Conv+abc123" 64).2.WriteWeight "Conv+abc123" 65).2 =
        (PrepackedWeightsContainer.init.WriteWeight "Conv+abc123" 64).2 ∧
      ((PrepackedWeightsContainer.init.WriteWeight "Conv+abc123" 64).2.WriteWeight "Conv+abc123" 65).2.GetWeight "Conv+abc123" = .ok 64)) := by
  have h := writeWeight_first_wins_never_overwrites
    PrepackedWeightsContainer.init "Conv+abc123" 64 rfl
  exact ⟨h.1, h.2.1, h.2.2.1, h.2.2.2 65⟩

/-- C2: after any call sequence from a fresh container in which no
`WriteWeight` call mentions key `K` (hence `K` was never successfully
written), `HasWeight(K)` is `false` and `GetWeight(K)` fails with
`NotFound`; `HasWeight` itself is a `const` member embedded as a pure
function of the container, so it has no side effect on the cache state. -/
theorem hasWeight_false_getWeight_notFound_of_never_written
    (ops : List ContainerOp) (k : String)
    (h : ∀ b, ContainerOp.write k b ∉ ops) :
    (runOps ops PrepackedWeightsContainer.init).1.HasWeight k = false ∧
    (runOps ops PrepackedWeightsContainer.init).1.GetWeight k = .error .NotFound := by
  have hl := assocLookup_runOps_of_not_written ops PrepackedWeightsContainer.init k h
  have hinit : assocLookup PrepackedWeightsContainer.init.prepacked_weights_map k = none := rfl
  rw [hinit] at hl
  simp [PrepackedWeightsContainer.HasWeight, PrepackedWeightsContainer.GetWeight, hl]

/-- Witness for C2: after writing `"Conv+abc123"`, the unrelated key
`"Gemm+ffff"` is still absent and its lookup fails with `NotFound`. -/
theorem hasWeight_false_getWeight_notFound_of_never_written_witness :
    (runOps [ContainerOp.write "Conv+abc123" 64]
        PrepackedWeightsContainer.init).1.HasWeight "Gemm+ffff" = false ∧
    (runOps [ContainerOp.write "Conv+abc123" 64]
        PrepackedWeightsContainer.init).1.GetWeight "Gemm+ffff" = .error .NotFound :=
  hasWeight_false_getWeight_notFound_of_never_written
    [ContainerOp.write "Conv+abc123" 64] "Gemm+ffff"
    (by
      intro b hb
      rw [List.mem_singleton] at hb
      injection hb with h1 h2
      exact absurd h1 (by decide))

/-- C9: for every finite call sequence on an initially empty container,
`GetNumberOfElements()` equals the number of `WriteWeight` calls that
returned `true`. -/
theorem getNumberOfElements_counts_successful_writes (ops : List ContainerOp) :
    (runOps ops PrepackedWeightsContainer.init).1.GetNumberOfElements =
      (runOps ops PrepackedWeightsContainer.init).2 := by
  have h := getNumberOfElements_runOps ops PrepackedWeightsContainer.init
  simpa [PrepackedWeightsContainer.init, PrepackedWeightsContainer.GetNumberOfElements] using h

/-- C6: `GetOrCreateAllocator` is memoized per device name and restricted
to the CPU device: on any container state, calling it twice with `"Cpu"`
returns the same allocator instance both times (the first call constructs
and stores it when absent, and the second call changes nothing); calling
it with any device name other than `"Cpu"` that is not already registered
fails with `UnsupportedDevice`. -/
theorem getOrCreateAllocator_memoized_cpu_only
    (c : PrepackedWeightsContainer) (d : String) (hd : d ≠ CPU)
    (hdabs : assocLookup c.allocators d = none) :
    (∃ a, (c.GetOrCreateAllocator CPU).1 = .ok a ∧
      ((c.GetOrCreateAllocator CPU).2.GetOrCreateAllocator CPU).1 = .ok a ∧
      ((c.GetOrCreateAllocator CPU).2.GetOrCreateAllocator CPU).2 =
        (c.GetOrCreateAllocator CPU).2) ∧
    (c.GetOrCreateAllocator d).1 = .error .UnsupportedDevice := by
  constructor
  · cases hcpu : assocLookup c.allocators CPU with
    | some a =>
        refine ⟨a, ?_, ?_, ?_⟩ <;>
          simp [PrepackedWeightsContainer.GetOrCreateAllocator, hcpu]
    | none =>
        refine ⟨c.next_allocator_id, ?_, ?_, ?_⟩ <;>
          simp [PrepackedWeightsContainer.GetOrCreateAllocator, hcpu, assocLookup_cons]
  · simp [PrepackedWeightsContainer.GetOrCreateAllocator, hdabs, hd]

/-- Witness for C6 on a fresh container with the unsupported device name
`"Gpu"`. -/
theorem getOrCreateAllocator_memoized_cpu_only_witness :
    (∃ a, (PrepackedWeightsContainer.init.GetOrCreateAllocator CPU).1 = .ok a ∧
      ((PrepackedWeightsContainer.init.GetOrCreateAllocator CPU).2.GetOrCreateAllocator CPU).1 = .ok a ∧
      ((PrepackedWeightsContainer.init.GetOrCreateAllocator CPU).2.GetOrCreateAllocator CPU).2 =
        (PrepackedWeightsContainer.init.GetOrCreateAllocator CPU).2) ∧
    (PrepackedWeightsContainer.init.GetOrCreateAllocator "Gpu").1 = .error .UnsupportedDevice :=
  getOrCreateAllocator_memoized_cpu_only PrepackedWeightsContainer.init "Gpu"
    (by decide) rfl

/-- C10: a failed `GetOrCreateAllocator` call is atomic: for any device
name `D` other than `"Cpu"` that is not registered, the call fails with
`UnsupportedDevice` and leaves the container unchanged — the allocator
registry is identical, every previously memoized allocator is still
returned unchanged by a later call, and a later `GetOrCreateAllocator
("Cpu")` still succeeds. -/
theorem getOrCreateAllocator_failure_atomic
    (c : PrepackedWeightsContainer) (d : String) (hd : d ≠ CPU)
    (hdabs : assocLookup c.allocators d = none) :
    (c.GetOrCreateAllocator d).1 = .error .UnsupportedDevice ∧
    (c.GetOrCreateAllocator d).2 = c ∧
    (∀ d' a, assocLookup c.allocators d' = some a →
      (((c.GetOrCreateAllocator d).2).GetOrCreateAllocator d').1 = .ok a) ∧
    (∃ a, (((c.GetOrCreateAllocator d).2).GetOrCreateAllocator CPU).1 = .ok a) := by
  have hfail : c.GetOrCreateAllocator d = (.error .UnsupportedDevice, c) := by
    simp [PrepackedWeightsContainer.GetOrCreateAllocator, hdabs, hd]
  refine ⟨by simp [hfail], by simp [hfail], ?_, ?_⟩
  · intro d' a hmem
    rw [hfail]
    simp [PrepackedWeightsContainer.GetOrCreateAllocator, hmem]
  · cases hcpu : assocLookup c.allocators CPU with
    | some a =>
        exact ⟨a, by
          rw [hfail]
          simp [PrepackedWeightsContainer.GetOrCreateAllocator, hcpu]⟩
    | none =>
        exact ⟨c.next_allocator_id, by
          rw [hfail]
          simp [PrepackedWeightsContainer.GetOrCreateAllocator, hcpu]⟩

/-- Witness for C10: a container that already memoized a CPU allocator,
probed with the unsupported device name `"Gpu"`. -/
theorem getOrCreateAllocator_failure_atomic_witness :
    (((PrepackedWeightsContainer.init.GetOrCreateAllocator CPU).2.GetOrCreateAllocator "Gpu").1 =
      .error .UnsupportedDevice ∧
     ((PrepackedWeightsContainer.init.GetOrCreateAllocator CPU).2.GetOrCreateAllocator "Gpu").2 =
      (PrepackedWeightsContainer.init.GetOrCreateAllocator CPU).2 ∧
     (∀ d' a,
        assocLookup (PrepackedWeightsContainer.init.GetOrCreateAllocator CPU).2.allocators d' = some a →
        ((((PrepackedWeightsContainer.init.GetOrCreateAllocator CPU).2.GetOrCreateAllocator "Gpu").2).GetOrCreateAllocator d').1 = .ok a) ∧
     (∃ a, ((((PrepackedWeightsContainer.init.GetOrCreateAllocator CPU).2.GetOrCreateAllocator "Gpu").2).GetOrCreateAllocator CPU).1 = .ok a)) :=
  getOrCreateAllocator_failure_atomic
    (PrepackedWeightsContainer.init.GetOrCreateAllocator CPU).2 "Gpu"
    (by decide) rfl

section ScopeLemmas

/-- An arena index that dereferences to a scope is in range. -/
theorem lt_length_of_scopeAt (st : PrepackedForSerialization) (sid : Nat)
    (sg : Subgraph) (hsid : st.scopes[sid]? = some sg) : sid < st.scopes.length := by
  by_contra hge
  rw [List.getElem?_eq_none (Nat.le_of_not_lt hge)] at hsid
  cases hsid

/-- Shape of `GetOrCreateSubgraph` on the creating branch. -/
theorem getOrCreateSubgraph_create_eq (st : PrepackedForSerialization)
    (sid : Nat) (sg : Subgraph) (g : Nat)
    (hsid : st.scopes[sid]? = some sg)
    (hg : assocLookup sg.subgraph_prepacks g = none) :
    st.GetOrCreateSubgraph sid g =
      (st.scopes.length,
       { st with
           scopes :=
             st.scopes.set sid
               { sg with subgraph_prepacks := (g, st.scopes.length) :: sg.subgraph_prepacks } ++
             [{ overwrite_for_save := sg.overwrite_for_save, parent := some sid,
                weight_to_pre_packs := [], subgraph_prepacks := [] }] }) := by
  simp [PrepackedForSerialization.GetOrCreateSubgraph, hsid, hg]

end ScopeLemmas

/-- C4: for every scope `S` and graph identity `G`, `GetSubgraph(G)` is
null while `G` is unregistered in `S` (in particular on a freshly
constructed store); `GetOrCreateSubgraph(G)` is memoized — the second call
returns exactly the result of the first and changes nothing — and the
child created by the first call has `S` as its parent and inherits `S`'s
overwrite-for-save flag. The flat key-to-blob map is shared structurally
in this embedding (one `key_to_blobs` per store, read by every scope);
creation leaves it untouched, so `GetPrepackedWeights` is unchanged. -/
theorem getOrCreateSubgraph_memoized_inherits
    (flag : Bool) (g : Nat) (st : PrepackedForSerialization) (sid : Nat)
    (sg : Subgraph) (hsid : st.scopes[sid]? = some sg) :
    (PrepackedForSerialization.init flag).GetSubgraph 0 g = none ∧
    (st.GetOrCreateSubgraph sid g).2.GetOrCreateSubgraph sid g =
      st.GetOrCreateSubgraph sid g ∧
    (st.GetSubgraph sid g = none →
      ∃ child,
        (st.GetOrCreateSubgraph sid g).2.scopeAt (st.GetOrCreateSubgraph sid g).1 =
          some child ∧
        child.parent = some sid ∧
        child.overwrite_for_save = sg.overwrite_for_save ∧
        (st.GetOrCreateSubgraph sid g).2.key_to_blobs = st.key_to_blobs ∧
        ∀ k, (st.GetOrCreateSubgraph sid g).2.GetPrepackedWeights k =
          st.GetPrepackedWeights k) := by
  have hlt : sid < st.scopes.length := lt_length_of_scopeAt st sid sg hsid
  refine ⟨?_, ?_, ?_⟩
  · simp [PrepackedForSerialization.init, PrepackedForSerialization.GetSubgraph]
  · cases hg : assocLookup sg.subgraph_prepacks g with
    | some cid =>
        have h1 : st.GetOrCreateSubgraph sid g = (cid, st) := by
          simp [PrepackedForSerialization.GetOrCreateSubgraph, hsid, hg]
        rw [h1, h1]
    | none =>
        have h1 := getOrCreateSubgraph_create_eq st sid sg g hsid hg
        rw [h1]
        have hsid' :
            (st.scopes.set sid
               { sg with subgraph_prepacks := (g, st.scopes.length) :: sg.subgraph_prepacks } ++
             [{ overwrite_for_save := sg.overwrite_for_save, parent := some sid,
                weight_to_pre_packs := [], subgraph_prepacks := [] }])[sid]? =
            some { sg with subgraph_prepacks := (g, st.scopes.length) :: sg.subgraph_prepacks } := by
          rw [List.getElem?_append, if_pos (by simpa using hlt)]
          exact List.getElem?_set_eq_of_lt _ hlt
        simp [PrepackedForSerialization.GetOrCreateSubgraph, hsid', assocLookup_cons]
  · intro hnone
    have hg : assocLookup sg.subgraph_prepacks g = none := by
      have := hnone
      simp [PrepackedForSerialization.GetSubgraph, hsid] at this
      exact this
    have h1 := getOrCreateSubgraph_create_eq st sid sg g hsid hg
    rw [h1]
    refine ⟨{ overwrite_for_save := sg.overwrite_for_save, parent := some sid,
              weight_to_pre_packs := [], subgraph_prepacks := [] },
            ?_, rfl, rfl, rfl, fun k => rfl⟩
    simp only [PrepackedForSerialization.scopeAt]
    rw [List.getElem?_append_right (by simp)]
    simp

/-- Witness for C4: the fresh store with flag `true`, main-graph scope 0
and graph identity 7. -/
theorem getOrCreateSubgraph_memoized_inherits_witness :
    ((PrepackedForSerialization.init true).GetSubgraph 0 7 = none ∧
     ((PrepackedForSerialization.init true).GetOrCreateSubgraph 0 7).2.GetOrCreateSubgraph 0 7 =
       (PrepackedForSerialization.init true).GetOrCreateSubgraph 0 7 ∧
     ((PrepackedForSerialization.init true).GetSubgraph 0 7 = none →
       ∃ child,
         (((PrepackedForSerialization.init true).GetOrCreateSubgraph 0 7).2).scopeAt
             (((PrepackedForSerialization.init true).GetOrCreateSubgraph 0 7).1) = some child ∧
         child.parent = some 0 ∧
         child.overwrite_for_save = true ∧
         (((PrepackedForSerialization.init true).GetOrCreateSubgraph 0 7).2).key_to_blobs =
           (PrepackedForSerialization.init true).key_to_blobs ∧
         ∀ k, (((PrepackedForSerialization.init true).GetOrCreateSubgraph 0 7).2).GetPrepackedWeights k =
           (PrepackedForSerialization.init true).GetPrepackedWeights k)) :=
  getOrCreateSubgraph_memoized_inherits true 7 (PrepackedForSerialization.init true) 0
    { overwrite_for_save := true, parent := none,
      weight_to_pre_packs := [], subgraph_prepacks := [] } rfl

/-- C5 counterexample: in the store obtained by registering graph identity
7 under the main graph, scope 1 (whose parent is scope 0, where 7 is
registered) does not locate 7 through its own traversal operations:
`GetSubgraph` returns null and `GetOrCreateSubgraph` creates a fresh child
(index 2) instead of returning the ancestor-registered scope 1 — refuting
the claim that the traversal operations follow the parent chain. -/
theorem getSubgraph_not_parent_chain_aware :
    (((PrepackedForSerialization.init false).GetOrCreateSubgraph 0 7).2.GetSubgraph 0 7 =
      some 1) ∧
    ((((PrepackedForSerialization.init false).GetOrCreateSubgraph 0 7).2.scopeAt 1).map
       Subgraph.parent = some (some 0)) ∧
    (((PrepackedForSerialization.init false).GetOrCreateSubgraph 0 7).2.GetSubgraph 1 7 =
      none) ∧
    ((((PrepackedForSerialization.init false).GetOrCreateSubgraph 0 7).2.GetOrCreateSubgraph 1 7).1 =
      2) := by
  decide

/-- C5 (amended): weight-name lookup resolves a name only within its own
scope, and the scope-tree operations `GetSubgraph`/`GetOrCreateSubgraph`
likewise consult only the scope's own child map: the scope tree is linked
through parent back-references, but a graph identity (or weight name)
registered only in an ancestor is not found — `GetSubgraph` returns null,
and name lookups report no blobs. -/
theorem scope_lookups_are_scope_local
    (st : PrepackedForSerialization) (sid : Nat) (sg : Subgraph)
    (hsid : st.scopes[sid]? = some sg) (n : String) (g : Nat) :
    (assocLookup sg.weight_to_pre_packs n = none →
      st.GetBlobNumForWeight sid n = 0 ∧
      ∀ i, st.GetBlobForWeight sid n i = .error .AbsentWeight) ∧
    (assocLookup sg.subgraph_prepacks g = none → st.GetSubgraph sid g = none) := by
  constructor
  · intro hn
    constructor
    · simp [PrepackedForSerialization.GetBlobNumForWeight, hsid, hn]
    · intro i
      simp [PrepackedForSerialization.GetBlobForWeight, hsid, hn]
  · intro hg
    simp [PrepackedForSerialization.GetSubgraph, hsid, hg]

/-- Witness for the amended C5 at the counterexample store: scope 1 has
neither the name `"w"` nor the graph identity 7, even though 7 is
registered in its parent scope 0. -/
theorem scope_lookups_are_scope_local_witness :
    ((((PrepackedForSerialization.init false).GetOrCreateSubgraph 0 7).2.GetBlobNumForWeight 1 "w" = 0 ∧
      ∀ i, (((PrepackedForSerialization.init false).GetOrCreateSubgraph 0 7).2).GetBlobForWeight 1 "w" i =
        .error .AbsentWeight) ∧
     (((PrepackedForSerialization.init false).GetOrCreateSubgraph 0 7).2.GetSubgraph 1 7 = none)) := by
  have h := scope_lookups_are_scope_local
    ((PrepackedForSerialization.init false).GetOrCreateSubgraph 0 7).2 1
    { overwrite_for_save := false, parent := some 0,
      weight_to_pre_packs := [], subgraph_prepacks := [] } (by decide) "w" 7
  exact ⟨h.1 rfl, h.2 rfl⟩

/-- Result decomposition of `CreateOrOverWrite` on a valid scope: the
returned boolean is presence of the key in the flat map, the flat map is
updated by overwriting insertion, and the key is appended to the weight
name's entry list of that scope. -/
theorem createOrOverWrite_eq (st : PrepackedForSerialization) (sid : Nat)
    (sg : Subgraph) (hsid : st.scopes[sid]? = some sg)
    (n k : String) (b : Blob) :
    st.CreateOrOverWrite sid n k b =
      ((assocLookup st.key_to_blobs k).isSome,
       { st with
           key_to_blobs := assocInsertOrAssign st.key_to_blobs k b,
           scopes := st.scopes.set sid
             { sg with weight_to_pre_packs := assocPush sg.weight_to_pre_packs n k } }) := by
  simp [PrepackedForSerialization.CreateOrOverWrite, hsid]

/-- C3: on any store state where key `K` is absent from the flat map and
name `N` is unregistered in scope `S`: `CreateOrOverwrite` returns
whether an entry at the key already existed and leaves the new blob
retrievable at the key (general law); the first call `(N, K, B)` returns
`false` and registers one blob for `N`; a second call `(N, K, B2)` with
the same name and key returns `true`, replaces the entry at `K` by `B2`,
and `GetBlobNumForWeight(N)` is 2 (the key coincidence branch); a second
call with a different fresh key `K2` returns `false`, keeps both blobs,
and `GetBlobNumForWeight(N)` is 2 (the differing-keys branch). -/
theorem createOrOverWrite_spec (st : PrepackedForSerialization) (sid : Nat)
    (sg : Subgraph) (hsid : st.scopes[sid]? = some sg)
    (n k : String) (b b2 : Blob)
    (hk : assocLookup st.key_to_blobs k = none)
    (hn : assocLookup sg.weight_to_pre_packs n = none) :
    (∀ k' b', (st.CreateOrOverWrite sid n k' b').1 =
        (assocLookup st.key_to_blobs k').isSome ∧
      (st.CreateOrOverWrite sid n k' b').2.GetPrepackedWeights k' = some b') ∧
    ((st.CreateOrOverWrite sid n k b).1 = false ∧
     (st.CreateOrOverWrite sid n k b).2.GetPrepackedWeights k = some b ∧
     (st.CreateOrOverWrite sid n k b).2.GetBlobNumForWeight sid n = 1) ∧
    (((st.CreateOrOverWrite sid n k b).2.CreateOrOverWrite sid n k b2).1 = true ∧
     ((st.CreateOrOverWrite sid n k b).2.CreateOrOverWrite sid n k b2).2.GetPrepackedWeights k =
       some b2 ∧
     ((st.CreateOrOverWrite sid n k b).2.CreateOrOverWrite sid n k b2).2.GetBlobNumForWeight sid n =
       2) ∧
    (∀ k2 b2', k2 ≠ k → assocLookup st.key_to_blobs k2 = none →
      ((st.CreateOrOverWrite sid n k b).2.CreateOrOverWrite sid n k2 b2').1 = false ∧
      ((st.CreateOrOverWrite sid n k b).2.CreateOrOverWrite sid n k2 b2').2.GetPrepackedWeights k2 =
        some b2' ∧
      ((st.CreateOrOverWrite sid n k b).2.CreateOrOverWrite sid n k2 b2').2.GetPrepackedWeights k =
        some b ∧
      ((st.CreateOrOverWrite sid n k b).2.CreateOrOverWrite sid n k2 b2').2.GetBlobNumForWeight sid n =
        2) := by
  have hlt : sid < st.scopes.length := lt_length_of_scopeAt st sid sg hsid
  have hset : ∀ x : Subgraph, (st.scopes.set sid x)[sid]? = some x :=
    fun x => List.getElem?_set_eq_of_lt x hlt
  have hset2 : ∀ x y : Subgraph, ((st.scopes.set sid x).set sid y)[sid]? = some y :=
    fun x y => List.getElem?_set_eq_of_lt y (by simpa using hlt)
  have h1 := createOrOverWrite_eq st sid sg hsid n k b
  refine ⟨?_, ?_, ?_, ?_⟩
  · intro k' b'
    rw [createOrOverWrite_eq st sid sg hsid n k' b']
    simp [PrepackedForSerialization.GetPrepackedWeights]
  · rw [h1]
    simp [PrepackedForSerialization.GetPrepackedWeights,
          PrepackedForSerialization.GetBlobNumForWeight, hk, hset, hn]
  · rw [h1]
    rw [createOrOverWrite_eq _ sid _ (hset _) n k b2]
    simp [PrepackedForSerialization.GetPrepackedWeights,
          PrepackedForSerialization.GetBlobNumForWeight, hk, hset, hset2, hn]
  · intro k2 b2' hk2 habs
    rw [h1]
    rw [createOrOverWrite_eq _ sid _ (hset _) n k2 b2']
    have hne : k ≠ k2 := fun he => hk2 he.symm
    simp [PrepackedForSerialization.GetPrepackedWeights,
          PrepackedForSerialization.GetBlobNumForWeight, hset, hset2, hn,
          assocLookup_insertOrAssign_other _ _ _ _ hne, habs,
          assocLookup_insertOrAssign_other _ _ _ _ hk2]

/-- Witness for C3 on the fresh overwrite-for-save store, scope 0, name
`"w"`, keys `"K1"`/`"K2"` and blobs 1, 2, 3, 9. -/
theorem createOrOverWrite_spec_witness :
    ((((PrepackedForSerialization.init true).CreateOrOverWrite 0 "w" "Kx" 9).1 =
        (assocLookup (PrepackedForSerialization.init true).key_to_blobs "Kx").isSome ∧
      ((PrepackedForSerialization.init true).CreateOrOverWrite 0 "w" "Kx" 9).2.GetPrepackedWeights "Kx" =
        some 9) ∧
     (((PrepackedForSerialization.init true).CreateOrOverWrite 0 "w" "K1" 1).1 = false ∧
      ((PrepackedForSerialization.init true).CreateOrOverWrite 0 "w" "K1" 1).2.GetPrepackedWeights "K1" =
        some 1 ∧
      ((PrepackedForSerialization.init true).CreateOrOverWrite 0 "w" "K1" 1).2.GetBlobNumForWeight 0 "w" =
        1) ∧
     ((((PrepackedForSerialization.init true).CreateOrOverWrite 0 "w" "K1" 1).2.CreateOrOverWrite 0 "w" "K1" 2).1 = true ∧
      (((PrepackedForSerialization.init true).CreateOrOverWrite 0 "w" "K1" 1).2.CreateOrOverWrite 0 "w" "K1" 2).2.GetPrepackedWeights "K1" =
        some 2 ∧
      (((PrepackedForSerialization.init true).CreateOrOverWrite 0 "w" "K1" 1).2.CreateOrOverWrite 0 "w" "K1" 2).2.GetBlobNumForWeight 0 "w" =
        2) ∧
     ((((PrepackedForSerialization.init true).CreateOrOverWrite 0 "w" "K1" 1).2.CreateOrOverWrite 0 "w" "K2" 3).1 = false ∧
      (((PrepackedForSerialization.init true).CreateOrOverWrite 0 "w" "K1" 1).2.CreateOrOverWrite 0 "w" "K2" 3).2.GetPrepackedWeights "K2" =
        some 3 ∧
      (((PrepackedForSerialization.init true).CreateOrOverWrite 0 "w" "K1" 1).2.CreateOrOverWrite 0 "w" "K2" 3).2.GetPrepackedWeights "K1" =
        some 1 ∧
      (((PrepackedForSerialization.init true).CreateOrOverWrite 0 "w" "K1" 1).2.CreateOrOverWrite 0 "w" "K2" 3).2.GetBlobNumForWeight 0 "w" =
        2)) := by
  have h := createOrOverWrite_spec (PrepackedForSerialization.init true) 0
    { overwrite_for_save := true, parent := none,
      weight_to_pre_packs := [], subgraph_prepacks := [] } rfl "w" "K1" 1 2 rfl rfl
  exact ⟨h.1 "Kx" 9, h.2.1, h.2.2.1, h.2.2.2 "K2" 3 (by decide) rfl⟩

/-- C7: after `InsertFromDisk(K, B)` the blob is retrievable by direct key
lookup through the shared flat map — which in this embedding is the one
`key_to_blobs` of the store, read by `GetPrepackedWeights` identically
from every scope — while every other key is untouched and no scope's
per-weight-name index changes (`scopes` is untouched, so
`GetBlobNumForWeight` is unchanged for every scope and name). -/
theorem insertFromDisk_roundtrip_bypasses_index
    (st : PrepackedForSerialization) (k : String) (b : Blob) :
    (st.InsertFromDisk k b).GetPrepackedWeights k = some b ∧
    (st.InsertFromDisk k b).scopes = st.scopes ∧
    (∀ k2, k2 ≠ k →
      (st.InsertFromDisk k b).GetPrepackedWeights k2 = st.GetPrepackedWeights k2) ∧
    (∀ sid n, (st.InsertFromDisk k b).GetBlobNumForWeight sid n =
      st.GetBlobNumForWeight sid n) := by
  refine ⟨?_, rfl, ?_, fun sid n => rfl⟩
  · simp [PrepackedForSerialization.InsertFromDisk,
          PrepackedForSerialization.GetPrepackedWeights]
  · intro k2 hk2
    simp [PrepackedForSerialization.InsertFromDisk,
          PrepackedForSerialization.GetPrepackedWeights,
          assocLookup_insertOrAssign_other _ _ _ _ (fun he => hk2 he.symm)]

/-- Witness for C7 on the fresh load-mode store with key `"K1"`, blob 5
and the distinct probe key `"K2"`. -/
theorem insertFromDisk_roundtrip_bypasses_index_witness :
    (((PrepackedForSerialization.init false).InsertFromDisk "K1" 5).GetPrepackedWeights "K1" =
      some 5 ∧
     ((PrepackedForSerialization.init false).InsertFromDisk "K1" 5).scopes =
      (PrepackedForSerialization.init false).scopes ∧
     ((PrepackedForSerialization.init false).InsertFromDisk "K1" 5).GetPrepackedWeights "K2" =
      (PrepackedForSerialization.init false).GetPrepackedWeights "K2" ∧
     ((PrepackedForSerialization.init false).InsertFromDisk "K1" 5).GetBlobNumForWeight 0 "w" =
      (PrepackedForSerialization.init false).GetBlobNumForWeight 0 "w") := by
  have h := insertFromDisk_roundtrip_bypasses_index (PrepackedForSerialization.init false) "K1" 5
  exact ⟨h.1, h.2.1, h.2.2.1 "K2" (by decide), h.2.2.2 0 "w"⟩

/-- C8: per-weight indexed lookup distinguishes its two hard failures: for
an unregistered name every index fails with `AbsentWeight`; for a
registered name, `GetBlobNumForWeight` is the entry-list length, any index
at or beyond it fails with `IndexOutOfRange` (a failure distinct from
`AbsentWeight`), and an in-range index returns the blob stored in the flat
map under the i-th registered key — the entry list grows by appending at
registration, so position `i` is the i-th registration in order. -/
theorem getBlobForWeight_error_taxonomy
    (st : PrepackedForSerialization) (sid : Nat) (sg : Subgraph)
    (hsid : st.scopes[sid]? = some sg) (n : String) (i : Nat) :
    (assocLookup sg.weight_to_pre_packs n = none →
      st.GetBlobForWeight sid n i = .error .AbsentWeight) ∧
    (∀ l, assocLookup sg.weight_to_pre_packs n = some l →
      st.GetBlobNumForWeight sid n = l.length ∧
      (l.length ≤ i → st.GetBlobForWeight sid n i = .error .IndexOutOfRange) ∧
      (∀ key b, l[i]? = some key → assocLookup st.key_to_blobs key = some b →
        st.GetBlobForWeight sid n i = .ok b)) := by
  refine ⟨?_, ?_⟩
  · intro hn
    simp [PrepackedForSerialization.GetBlobForWeight, hsid, hn]
  · intro l hl
    refine ⟨by simp [PrepackedForSerialization.GetBlobNumForWeight, hsid, hl], ?_, ?_⟩
    · intro hle
      simp [PrepackedForSerialization.GetBlobForWeight, hsid, hl,
            List.getElem?_eq_none hle]
    · intro key b hkey hb
      simp [PrepackedForSerialization.GetBlobForWeight, hsid, hl, hkey, hb]

/-- Witness for C8 on a concrete store whose scope 0 registered keys
`"K1"`, `"K2"` under name `"w"`: the unregistered name `"v"` fails with
`AbsentWeight`, index 2 fails with `IndexOutOfRange`, and index 1 returns
the blob under the second registered key. -/
theorem getBlobForWeight_error_taxonomy_witness :
    (PrepackedForSerialization.GetBlobForWeight
        { key_to_blobs := [("K1", 5), ("K2", 7)],
          scopes := [{ overwrite_for_save := true, parent := none,
                       weight_to_pre_packs := [("w", ["K1", "K2"])],
                       subgraph_prepacks := [] }] } 0 "v" 0 = .error .AbsentWeight) ∧
    (PrepackedForSerialization.GetBlobNumForWeight
        { key_to_blobs := [("K1", 5), ("K2", 7)],
          scopes := [{ overwrite_for_save := true, parent := none,
                       weight_to_pre_packs := [("w", ["K1", "K2"])],
                       subgraph_prepacks := [] }] } 0 "w" = 2) ∧
    (PrepackedForSerialization.GetBlobForWeight
        { key_to_blobs := [("K1", 5), ("K2", 7)],
          scopes := [{ overwrite_for_save := true, parent := none,
                       weight_to_pre_packs := [("w", ["K1", "K2"])],
                       subgraph_prepacks := [] }] } 0 "w" 2 = .error .IndexOutOfRange) ∧
    (PrepackedForSerialization.GetBlobForWeight
        { key_to_blobs := [("K1", 5), ("K2", 7)],
          scopes := [{ overwrite_for_save := true, parent := none,
                       weight_to_pre_packs := [("w", ["K1", "K2"])],
                       subgraph_prepacks := [] }] } 0 "w" 1 = .ok 7) := by
  have hv := getBlobForWeight_error_taxonomy
    { key_to_blobs := [("K1", 5), ("K2", 7)],
      scopes := [{ overwrite_for_save := true, parent := none,
                   weight_to_pre_packs := [("w", ["K1", "K2"])],
                   subgraph_prepacks := [] }] } 0
    { overwrite_for_save := true, parent := none,
      weight_to_pre_packs := [("w", ["K1", "K2"])],
      subgraph_prepacks := [] } rfl "v" 0
  have hw2 := getBlobForWeight_error_taxonomy
    { key_to_blobs := [("K1", 5), ("K2", 7)],
      scopes := [{ overwrite_for_save := true, parent := none,
                   weight_to_pre_packs := [("w", ["K1", "K2"])],
                   subgraph_prepacks := [] }] } 0
    { overwrite_for_save := true, parent := none,
      weight_to_pre_packs := [("w", ["K1", "K2"])],
      subgraph_prepacks := [] } rfl "w" 2
  have hw1 := getBlobForWeight_error_taxonomy
    { key_to_blobs := [("K1", 5), ("K2", 7)],
      scopes := [{ overwrite_for_save := true, parent := none,
                   weight_to_pre_packs := [("w", ["K1", "K2"])],
                   subgraph_prepacks := [] }] } 0
    { overwrite_for_save := true, parent := none,
      weight_to_pre_packs := [("w", ["K1", "K2"])],
      subgraph_prepacks := [] } rfl "w" 1
  exact ⟨hv.1 rfl, (hw2.2 ["K1", "K2"] rfl).1,
         (hw2.2 ["K1", "K2"] rfl).2.1 (by decide),
         (hw1.2 ["K1", "K2"] rfl).2.2 "K2" 7 rfl rfl⟩

end OnnxPrepacked
